import Mathlib

/-!
# Verification of the empirical complexity-profiler core of `advent-of-code`

Shallow embedding of `src/test/python/logs.py` (the `TestResults` resilient
retry runner) and `src/test/python/runtime.py` (the `test_algorithm` driver
around `big_o.big_o`), together with proofs of the specified retry, error
taxonomy, configuration and ranking properties.

The asynchronous test callable is modelled by a script mapping each
invocation number (1-based attempt index) to the outcome the awaited call
`asyncio.wait_for(self.test(), timeout=10.0)` produces on that attempt:
a successful value, an `asyncio.TimeoutError`, or a generic exception
carrying a message.  `run` is a fuel-indexed loop over the attempt range
`range(1, n_repeats + 1)`, recording every log line emitted and the number
of times the wrapped callable is invoked.
-/

namespace AoC

/-- Outcome of awaiting one invocation of the wrapped test callable under
`asyncio.wait_for`: success with a value, `asyncio.TimeoutError`, or a
generic `Exception` with a message. -/
inductive AttemptOutcome (α : Type) where
  | success (v : α)
  | timeout
  | failure (msg : String)
deriving Repr, DecidableEq

/-- `true` iff the outcome is a success. -/
def AttemptOutcome.isSuccess {α : Type} : AttemptOutcome α → Bool
  | .success _ => true
  | _ => false

/-- The exceptions `TestResults.run` can raise (`logs.py`):
`TestTimeoutError("Test %s consistently timed out", name)` — note it carries
only the name; `TestError("Test %s failed after %s attempts", name, n)`;
and the fall-through `TestError("Unexpected failure in test %s", name)`. -/
inductive RunError where
  | testTimeoutError (name : String)
  | testError (name : String) (nRepeats : Int)
  | unexpectedFailure (name : String)
deriving Repr, DecidableEq

/-- The name a `RunError` reports. -/
def RunError.nameOf : RunError → String
  | .testTimeoutError n => n
  | .testError n _ => n
  | .unexpectedFailure n => n

/-- Structured log lines emitted by `TestResults.run` and
`TestResults._log_test_results`: the per-attempt timeout and failure error
lines, the success info line, and — when the returned result is a dict —
the `"Subtest: %s"` line per outer key and the `"  %s: %s"` line per inner
key/value pair. -/
inductive LogLine where
  | timedOut (name : String) (attempt : Nat) (total : Int)
  | failed (name : String) (attempt : Nat) (total : Int) (msg : String)
  | successLine (name : String) (attempt : Nat)
  | subtest (subName : String)
  | keyValue (key : String) (value : String)
deriving Repr, DecidableEq

/-- The runner-level test name a log line mentions: the attempt-level
lines carry `self.test_name`; the subtest and key/value dump lines carry
content of the returned results dictionary instead, not the runner's
name. -/
def LogLine.runnerName : LogLine → Option String
  | .timedOut n _ _ => some n
  | .failed n _ _ _ => some n
  | .successLine n _ => some n
  | .subtest _ => none
  | .keyValue _ _ => none

/-- Python's `str.capitalize` (as used on the inner keys in
`_log_test_results`): first character uppercased, the rest lowercased. -/
def pyCapitalize (s : String) : String :=
  match s.toList with
  | [] => ""
  | c :: cs => String.mk (c.toUpper :: cs.map Char.toLower)

/-- The embedding of Python's runtime dict inspection performed by
`_log_test_results` (`isinstance(test_results, defaultdict | dict)` plus
`.items()`) for a result of type `α`: `none` when such a value is not a
dict, otherwise its ordered outer items, each with its ordered inner
key/value items, inner values already rendered to strings (the exact
`str()` text of nested values is abstracted; the dump's line structure and
the names the lines carry are modelled). -/
class PyDictView (α : Type) where
  view : α → Option (List (String × List (String × String)))

/-- A Python int is not a dict: `_log_test_results` dumps nothing. -/
instance : PyDictView Nat := ⟨fun _ => none⟩

/-- The log lines `_log_test_results` emits after the success line: for
each outer item a `"Subtest: %s"` line carrying the dict key, then for
each inner item a `"  %s: %s"` line with the capitalized inner key. -/
def resultDump {α : Type} [PyDictView α] (v : α) : List LogLine :=
  match PyDictView.view v with
  | none => []
  | some entries =>
    entries.flatMap (fun e =>
      .subtest e.1 :: e.2.map (fun kv => .keyValue (pyCapitalize kv.1) kv.2))

/-- A Python callable as `TestResults.__init__` sees it: it may or may not
expose a `__name__` attribute, and invoking it on attempt `k` (1-based)
yields the scripted outcome. -/
structure Callable (α : Type) where
  dunderName : Option String
  script : Nat → AttemptOutcome α

/-- The `TestResults` object after a successful `__init__`: the wrapped
test script, the captured `test.__name__`, and `n_repeats`. -/
structure TestResults (α : Type) where
  test : Nat → AttemptOutcome α
  test_name : String
  n_repeats : Int

/-- `TestResults.__init__`: reading `test.__name__` raises `AttributeError`
when the callable has no such attribute; otherwise the name is captured at
construction time. -/
def TestResults.init {α : Type} (test : Callable α) (n_repeats : Int) :
    Except String (TestResults α) :=
  match test.dunderName with
  | none => .error "AttributeError"
  | some nm => .ok ⟨test.script, nm, n_repeats⟩

/-- The default of the `n_repeats` parameter of `TestResults.__init__`. -/
def TestResults.defaultNRepeats : Int := 3

/-- The literal timeout (seconds) passed to `asyncio.wait_for` inside
`TestResults.run`. -/
def TestResults.waitForTimeout : Nat := 10

/-- The observable trace of one `run()` call: the returned value or raised
error, the log lines emitted in order, and how many times the wrapped test
callable was invoked. -/
structure RunTrace (α : Type) where
  outcome : Except RunError α
  log : List LogLine
  calls : Nat
deriving Repr

/-- The body of the retry loop of `TestResults.run`.  `attempt` is the
1-based loop variable; `fuel` is the number of iterations remaining in
`range(1, n_repeats + 1)`.  When the range is exhausted the fall-through
`TestError("Unexpected failure in test %s", name)` is raised.  On success,
`_log_test_results(result, attempt)` emits the success info line followed
by the dict dump of the result, and returns the result unchanged.  On the
last iteration (`attempt == n_repeats`, i.e. `fuel` becomes `0` after it)
a timeout raises `TestTimeoutError` and a generic failure raises
`TestError`. -/
def runGo {α : Type} [PyDictView α] (t : TestResults α) :
    Nat → Nat → List LogLine → Nat → RunTrace α
  | _, 0, log, calls => ⟨.error (.unexpectedFailure t.test_name), log, calls⟩
  | attempt, fuel + 1, log, calls =>
    match t.test attempt with
    | .success v =>
        ⟨.ok v, log ++ (.successLine t.test_name attempt :: resultDump v), calls + 1⟩
    | .timeout =>
        let log2 := log ++ [.timedOut t.test_name attempt t.n_repeats]
        if fuel = 0 then
          ⟨.error (.testTimeoutError t.test_name), log2, calls + 1⟩
        else
          runGo t (attempt + 1) fuel log2 (calls + 1)
    | .failure msg =>
        let log2 := log ++ [.failed t.test_name attempt t.n_repeats msg]
        if fuel = 0 then
          ⟨.error (.testError t.test_name t.n_repeats), log2, calls + 1⟩
        else
          runGo t (attempt + 1) fuel log2 (calls + 1)

/-- `TestResults.run`: iterate attempts `1 .. n_repeats` (an empty range
when `n_repeats <= 0`, matching `range(1, n_repeats + 1)`). -/
def TestResults.run {α : Type} [PyDictView α] (t : TestResults α) : RunTrace α :=
  runGo t 1 t.n_repeats.toNat [] 0

/-!
## `src/test/python/runtime.py`: the profiling driver

`test_algorithm` calls `big_o.big_o(test.func, test.generator, min_n=100,
max_n=10000, n_measures=10, n_repeats=test.n_repeats, n_timings=5)`, wraps
the `(best, others)` result into a dictionary, and re-raises any exception
after logging it.  `big_o` itself is an external library (not in this
repository); its behaviour enters the embedding only as a parameter, except
where a claim needs its spec-documented internals, which are then modelled
from the spec.
-/

/-- The `AlgorithmTest` dataclass: the fields the embedding needs (`name`
and the caller-overridable big_o repeat count, default 100). The `func`
and `generator` callables are external collaborators. -/
structure AlgorithmTest where
  name : String
  n_repeats : Nat
deriving Repr, DecidableEq

/-- The default of `AlgorithmTest.n_repeats`. -/
def AlgorithmTest.default_n_repeats : Nat := 100

/-- The keyword arguments `test_algorithm` passes to `big_o.big_o`. -/
structure BigOArgs where
  min_n : Nat
  max_n : Nat
  n_measures : Nat
  n_repeats : Nat
  n_timings : Nat
deriving Repr, DecidableEq

/-- The argument list of the `big_o.big_o` call inside `test_algorithm`:
every size/measurement parameter is a hard-coded literal; only `n_repeats`
comes from the caller's `AlgorithmTest`. -/
def bigOArgsOf (t : AlgorithmTest) : BigOArgs :=
  { min_n := 100
    max_n := 10000
    n_measures := 10
    n_repeats := t.n_repeats
    n_timings := 5 }

/-- The `(best, others)` value returned by a successful `big_o.big_o` call:
`str(best)` and the `(str(class_), float(residuals))` pairs. Residuals are
modelled as rationals. -/
structure BigOOutput where
  best : String
  others : List (String × Rat)
deriving Repr, DecidableEq

/-- The per-algorithm entry `test_algorithm` builds into its results
dictionary: `{"best_fit": str(best), "other_fits": {...}}`. -/
structure TAEntry where
  best_fit : String
  other_fits : List (String × Rat)
deriving Repr, DecidableEq

/-- A deterministic stand-in for Python's `str()` text of the nested
`other_fits` mapping (the exact text is unobservable by any claim; only
the dump's line structure and the names the lines carry matter). -/
def renderFits (l : List (String × Rat)) : String :=
  String.intercalate ", " (l.map (fun p => p.1 ++ ": " ++ toString p.2))

/-- `test_algorithm`'s results value
`{test.name: {"best_fit": str(best), "other_fits": {...}}}` is a dict:
`_log_test_results` dumps one `Subtest` line per outer key (the
`AlgorithmTest`'s `name`) and one key/value line per inner key
(`best_fit`, `other_fits`). -/
instance : PyDictView (List (String × TAEntry)) :=
  ⟨fun entries => some (entries.map (fun e =>
    (e.1, [("best_fit", e.2.best_fit), ("other_fits", renderFits e.2.other_fits)])))⟩

/-- `test_algorithm`, given the behaviour of the external `big_o.big_o`
call (`.ok` output or `.error` exception message): on success it returns
`{test.name: {"best_fit": ..., "other_fits": ...}}`; on failure the
`except` block logs the error and re-raises it unchanged. -/
def test_algorithm (t : AlgorithmTest) (bigO : Except String BigOOutput) :
    Except String (List (String × TAEntry)) :=
  match bigO with
  | .ok o => .ok [(t.name, ⟨o.best, o.others⟩)]
  | .error e => .error e

/-- Modelled from the spec: the distinct-size check inside the external
`big_o` library (not under `src/`) — "fewer than 2 distinct sizes fails
with a `InsufficientDataError`"; with at least two distinct sampled sizes
the regression succeeds and produces the fitted output. -/
def bigOOutcome (sizes : List Nat) (good : BigOOutput) : Except String BigOOutput :=
  if sizes.dedup.length < 2 then .error "InsufficientDataError" else .ok good

/-- The attempt outcome the profiling sweep presents to the resilient
runner: a raised exception message becomes a generic failure (it is an
`Exception`, so `run`'s `except Exception` branch catches it). -/
def profilerAttempt (t : AlgorithmTest) (bigO : Except String BigOOutput) :
    AttemptOutcome (List (String × TAEntry)) :=
  match test_algorithm t bigO with
  | .ok v => .success v
  | .error e => .failure e

/-!
## The candidate-model ranking (Complexity Profiler)

The fitting and ranking live inside the external `big_o` library, so they
are modelled from the spec: a closed set of seven candidate growth models
in fixed priority order, each fitted independently yielding a residual,
ranked ascending by residual with `bestFit` the minimal-residual model
(stable sort, so ties keep the simpler model first).
-/

/-- Modelled from the spec: the closed set of candidate growth models, in
the fixed priority order `O(1) < O(log n) < O(n) < O(n log n) < O(n^2) <
O(n^3) < O(2^n)`. -/
inductive CandidateModel where
  | constant
  | logarithmic
  | linear
  | linearithmic
  | quadratic
  | cubic
  | exponential
deriving Repr, DecidableEq, Inhabited

/-- The candidate models in priority order. -/
def candidateList : List CandidateModel :=
  [.constant, .logarithmic, .linear, .linearithmic, .quadratic, .cubic, .exponential]

/-- A fitted model: the candidate plus its regression residual. -/
structure FittedModel where
  model : CandidateModel
  residual : Rat
deriving Repr, DecidableEq, Inhabited

/-- The residual comparison used for ranking. -/
def residLE (a b : FittedModel) : Prop := a.residual ≤ b.residual

instance : DecidableRel residLE :=
  fun a b => inferInstanceAs (Decidable (a.residual ≤ b.residual))

instance : IsTotal FittedModel residLE :=
  ⟨fun a b => le_total a.residual b.residual⟩

instance : IsTrans FittedModel residLE :=
  ⟨fun _ _ _ h1 h2 => le_trans h1 h2⟩

/-- Modelled from the spec: rank all fitted models ascending by residual
(stable sort over the priority-ordered candidate list, so equal residuals
keep the simpler model first). -/
def rankFits (fits : List FittedModel) : List FittedModel :=
  List.insertionSort residLE fits

/-- The outcome of one profiling run, per the spec's `ProfileResult`. -/
structure ProfileResult where
  bestFit : FittedModel
  rankedFits : List FittedModel
deriving Repr, DecidableEq

/-- Modelled from the spec: profile from the sampled sizes and the fitted
residual of each candidate — fewer than two distinct sizes is an
`InsufficientDataError`; otherwise fit every candidate, rank ascending by
residual, and report the head of the ranking as `bestFit`. -/
def profile (sizes : List Nat) (resid : CandidateModel → Rat) :
    Except String ProfileResult :=
  if sizes.dedup.length < 2 then .error "InsufficientDataError"
  else
    let ranked := rankFits (candidateList.map (fun c => ⟨c, resid c⟩))
    .ok ⟨ranked.headI, ranked⟩

/-- The wrapper used in `runtime.py`'s `main`:
`TestResults(lambda: test_algorithm(test))`.  A Python lambda's `__name__`
is `"<lambda>"`; each invocation of the wrapper runs the entire profiling
sweep afresh, so the behaviour of the external `big_o` call may differ per
attempt and is indexed by the attempt number. -/
def mainCallable (t : AlgorithmTest) (bigO : Nat → Except String BigOOutput) :
    Callable (List (String × TAEntry)) :=
  ⟨some "<lambda>", fun k => profilerAttempt t (bigO k)⟩

/-- A concrete residual assignment used to instantiate the ranking
invariant: candidate `i` in priority order gets residual `i`. -/
def exampleResid : CandidateModel → Rat
  | .constant => 0
  | .logarithmic => 1
  | .linear => 2
  | .linearithmic => 3
  | .quadratic => 4
  | .cubic => 5
  | .exponential => 6

/-- The profile produced from two distinct sizes under `exampleResid`. -/
def exampleProfileResult : ProfileResult :=
  ⟨⟨.constant, 0⟩,
    [⟨.constant, 0⟩, ⟨.logarithmic, 1⟩, ⟨.linear, 2⟩, ⟨.linearithmic, 3⟩,
     ⟨.quadratic, 4⟩, ⟨.cubic, 5⟩, ⟨.exponential, 6⟩]⟩

/-!
## Lemmas about the retry loop
-/

/-- An exhausted attempt range falls through to the final
`TestError("Unexpected failure in test %s", name)`. -/
lemma runGo_zero {α : Type} [PyDictView α] (t : TestResults α) (attempt : Nat) (log : List LogLine) (c : Nat) :
    runGo t attempt 0 log c = ⟨.error (.unexpectedFailure t.test_name), log, c⟩ := rfl

/-- One loop iteration, successful attempt. -/
lemma runGo_step_success {α : Type} [PyDictView α] (t : TestResults α) {attempt : Nat} {v : α}
    (fuel : Nat) (log : List LogLine) (c : Nat) (hta : t.test attempt = .success v) :
    runGo t attempt (fuel + 1) log c =
      ⟨.ok v, log ++ (.successLine t.test_name attempt :: resultDump v), c + 1⟩ := by
  simp [runGo, hta]

/-- One loop iteration, timeout with attempts remaining. -/
lemma runGo_step_timeout {α : Type} [PyDictView α] (t : TestResults α) {attempt : Nat}
    {fuel : Nat} (log : List LogLine) (c : Nat) (hta : t.test attempt = .timeout)
    (hf : fuel ≠ 0) :
    runGo t attempt (fuel + 1) log c =
      runGo t (attempt + 1) fuel
        (log ++ [.timedOut t.test_name attempt t.n_repeats]) (c + 1) := by
  simp [runGo, hta, hf]

/-- Last iteration, timeout: raise `TestTimeoutError` (name only). -/
lemma runGo_last_timeout {α : Type} [PyDictView α] (t : TestResults α) {attempt : Nat}
    (log : List LogLine) (c : Nat) (hta : t.test attempt = .timeout) :
    runGo t attempt 1 log c =
      ⟨.error (.testTimeoutError t.test_name),
        log ++ [.timedOut t.test_name attempt t.n_repeats], c + 1⟩ := by
  simp [runGo, hta]

/-- One loop iteration, generic failure with attempts remaining. -/
lemma runGo_step_failure {α : Type} [PyDictView α] (t : TestResults α) {attempt : Nat} {msg : String}
    {fuel : Nat} (log : List LogLine) (c : Nat) (hta : t.test attempt = .failure msg)
    (hf : fuel ≠ 0) :
    runGo t attempt (fuel + 1) log c =
      runGo t (attempt + 1) fuel
        (log ++ [.failed t.test_name attempt t.n_repeats msg]) (c + 1) := by
  simp [runGo, hta, hf]

/-- Last iteration, generic failure: raise `TestError` (name and count). -/
lemma runGo_last_failure {α : Type} [PyDictView α] (t : TestResults α) {attempt : Nat} {msg : String}
    (log : List LogLine) (c : Nat) (hta : t.test attempt = .failure msg) :
    runGo t attempt 1 log c =
      ⟨.error (.testError t.test_name t.n_repeats),
        log ++ [.failed t.test_name attempt t.n_repeats msg], c + 1⟩ := by
  simp [runGo, hta]

/-- The invocation counter only grows along the loop. -/
lemma runGo_calls_mono {α : Type} [PyDictView α] (t : TestResults α) (fuel : Nat) :
    ∀ attempt log c, c ≤ (runGo t attempt fuel log c).calls := by
  induction fuel with
  | zero => intro attempt log c; rw [runGo_zero]
  | succ fuel ih =>
    intro attempt log c
    cases hta : t.test attempt with
    | success v => rw [runGo_step_success t fuel log c hta]; exact Nat.le_succ c
    | timeout =>
      rcases Nat.eq_zero_or_pos fuel with hf | hf
      · subst hf; rw [runGo_last_timeout t log c hta]; exact Nat.le_succ c
      · rw [runGo_step_timeout t log c hta (by omega)]
        exact le_trans (Nat.le_succ c) (ih (attempt + 1) _ (c + 1))
    | failure msg =>
      rcases Nat.eq_zero_or_pos fuel with hf | hf
      · subst hf; rw [runGo_last_failure t log c hta]; exact Nat.le_succ c
      · rw [runGo_step_failure t log c hta (by omega)]
        exact le_trans (Nat.le_succ c) (ih (attempt + 1) _ (c + 1))

/-- Reaching a success: if the first success in the attempt window is at
index `k`, the loop returns `.ok v` having invoked the test exactly once
per attempt up to `k`, and the log ends with the error lines of the failed
attempts followed by the success line for attempt `k` and the result's
dict dump. -/
lemma runGo_first_success {α : Type} [PyDictView α] (t : TestResults α) (fuel : Nat) :
    ∀ attempt log c k v, attempt ≤ k → k < attempt + fuel →
      t.test k = .success v →
      (∀ j, attempt ≤ j → j < k → (t.test j).isSuccess = false) →
      (runGo t attempt fuel log c).outcome = .ok v ∧
      (runGo t attempt fuel log c).calls = c + (k - attempt) + 1 ∧
      ∃ pre, (runGo t attempt fuel log c).log =
        log ++ (pre ++ (.successLine t.test_name k :: resultDump v)) := by
  induction fuel with
  | zero => intro attempt log c k v h1 h2 _ _; omega
  | succ fuel ih =>
    intro attempt log c k v h1 h2 hs hprev
    rcases eq_or_lt_of_le h1 with heq | hlt
    · subst heq
      rw [runGo_step_success t fuel log c hs]
      exact ⟨rfl, by show c + 1 = c + (attempt - attempt) + 1; omega,
        ⟨[], by simp⟩⟩
    · have hns := hprev attempt le_rfl hlt
      have hf : fuel ≠ 0 := by omega
      cases hta : t.test attempt with
      | success v2 => rw [hta] at hns; simp [AttemptOutcome.isSuccess] at hns
      | timeout =>
        rw [runGo_step_timeout t log c hta hf]
        have step := ih (attempt + 1)
          (log ++ [.timedOut t.test_name attempt t.n_repeats]) (c + 1) k v
          (by omega) (by omega) hs (fun j hj1 hj2 => hprev j (by omega) hj2)
        obtain ⟨pre, hpre⟩ := step.2.2
        refine ⟨step.1, by rw [step.2.1]; omega,
          ⟨.timedOut t.test_name attempt t.n_repeats :: pre, ?_⟩⟩
        rw [hpre]
        simp
      | failure msg =>
        rw [runGo_step_failure t log c hta hf]
        have step := ih (attempt + 1)
          (log ++ [.failed t.test_name attempt t.n_repeats msg]) (c + 1) k v
          (by omega) (by omega) hs (fun j hj1 hj2 => hprev j (by omega) hj2)
        obtain ⟨pre, hpre⟩ := step.2.2
        refine ⟨step.1, by rw [step.2.1]; omega,
          ⟨.failed t.test_name attempt t.n_repeats msg :: pre, ?_⟩⟩
        rw [hpre]
        simp

/-- Exhaustion: if no attempt in the window succeeds, the loop performs one
invocation per attempt and raises the terminal error determined by the kind
of the last attempt: `TestTimeoutError` (name only) after a timeout,
`TestError` (name and attempt count) after a generic failure. -/
lemma runGo_exhaust {α : Type} [PyDictView α] (t : TestResults α) (fuel : Nat) :
    ∀ attempt log c,
      (∀ k, attempt ≤ k → k ≤ attempt + fuel → (t.test k).isSuccess = false) →
      (runGo t attempt (fuel + 1) log c).calls = c + fuel + 1 ∧
      (t.test (attempt + fuel) = .timeout →
        (runGo t attempt (fuel + 1) log c).outcome =
          .error (.testTimeoutError t.test_name)) ∧
      (∀ msg, t.test (attempt + fuel) = .failure msg →
        (runGo t attempt (fuel + 1) log c).outcome =
          .error (.testError t.test_name t.n_repeats)) := by
  induction fuel with
  | zero =>
    intro attempt log c hfail
    have hns := hfail attempt le_rfl (by omega)
    cases hta : t.test attempt with
    | success v => rw [hta] at hns; simp [AttemptOutcome.isSuccess] at hns
    | timeout =>
      rw [runGo_last_timeout t log c hta]
      refine ⟨rfl, fun _ => rfl, fun msg hmsg => ?_⟩
      rw [Nat.add_zero attempt, hta] at hmsg
      exact absurd hmsg (by simp)
    | failure m =>
      rw [runGo_last_failure t log c hta]
      refine ⟨rfl, fun hto => ?_, fun msg hmsg => rfl⟩
      rw [Nat.add_zero attempt, hta] at hto
      exact absurd hto (by simp)
  | succ fuel ih =>
    intro attempt log c hfail
    have hns := hfail attempt le_rfl (by omega)
    have harith : attempt + 1 + fuel = attempt + (fuel + 1) := by omega
    cases hta : t.test attempt with
    | success v => rw [hta] at hns; simp [AttemptOutcome.isSuccess] at hns
    | timeout =>
      rw [runGo_step_timeout t log c hta (by omega)]
      have step := ih (attempt + 1)
        (log ++ [.timedOut t.test_name attempt t.n_repeats]) (c + 1)
        (fun k hk1 hk2 => hfail k (by omega) (by omega))
      refine ⟨by rw [step.1]; omega, fun hto => ?_, fun msg hmsg => ?_⟩
      · exact step.2.1 (by rw [harith]; exact hto)
      · exact step.2.2 msg (by rw [harith]; exact hmsg)
    | failure m =>
      rw [runGo_step_failure t log c hta (by omega)]
      have step := ih (attempt + 1)
        (log ++ [.failed t.test_name attempt t.n_repeats m]) (c + 1)
        (fun k hk1 hk2 => hfail k (by omega) (by omega))
      refine ⟨by rw [step.1]; omega, fun hto => ?_, fun msg hmsg => ?_⟩
      · exact step.2.1 (by rw [harith]; exact hto)
      · exact step.2.2 msg (by rw [harith]; exact hmsg)

/-- After `m` non-successful attempts with attempts still remaining, the
loop invokes the wrapped test again: at least `m + 1` invocations happen. -/
lemma runGo_calls_ge {α : Type} [PyDictView α] (t : TestResults α) (m : Nat) :
    ∀ fuel attempt log c, m < fuel →
      (∀ j, attempt ≤ j → j < attempt + m → (t.test j).isSuccess = false) →
      c + m + 1 ≤ (runGo t attempt fuel log c).calls := by
  induction m with
  | zero =>
    intro fuel attempt log c hf _
    obtain ⟨fuel2, rfl⟩ : ∃ f, fuel = f + 1 := ⟨fuel - 1, by omega⟩
    cases hta : t.test attempt with
    | success v => rw [runGo_step_success t fuel2 log c hta]
    | timeout =>
      rcases Nat.eq_zero_or_pos fuel2 with h0 | h0
      · subst h0; rw [runGo_last_timeout t log c hta]
      · rw [runGo_step_timeout t log c hta (by omega)]
        exact le_trans (by omega) (runGo_calls_mono t fuel2 (attempt + 1) _ (c + 1))
    | failure msg =>
      rcases Nat.eq_zero_or_pos fuel2 with h0 | h0
      · subst h0; rw [runGo_last_failure t log c hta]
      · rw [runGo_step_failure t log c hta (by omega)]
        exact le_trans (by omega) (runGo_calls_mono t fuel2 (attempt + 1) _ (c + 1))
  | succ m ih =>
    intro fuel attempt log c hf hfail
    obtain ⟨fuel2, rfl⟩ : ∃ f, fuel = f + 1 := ⟨fuel - 1, by omega⟩
    have hns := hfail attempt le_rfl (by omega)
    cases hta : t.test attempt with
    | success v => rw [hta] at hns; simp [AttemptOutcome.isSuccess] at hns
    | timeout =>
      rw [runGo_step_timeout t log c hta (by omega)]
      have := ih fuel2 (attempt + 1)
        (log ++ [.timedOut t.test_name attempt t.n_repeats]) (c + 1) (by omega)
        (fun j hj1 hj2 => hfail j (by omega) (by omega))
      omega
    | failure msg =>
      rw [runGo_step_failure t log c hta (by omega)]
      have := ih fuel2 (attempt + 1)
        (log ++ [.failed t.test_name attempt t.n_repeats msg]) (c + 1) (by omega)
        (fun j hj1 hj2 => hfail j (by omega) (by omega))
      omega

/-- The subtest and key/value dump lines carry no runner-level name. -/
lemma resultDump_runnerName {α : Type} [PyDictView α] (v : α) :
    ∀ l ∈ resultDump v, l.runnerName = none := by
  unfold resultDump
  cases PyDictView.view v with
  | none => intro l hl; cases hl
  | some entries =>
    intro l hl
    rcases List.mem_flatMap.mp hl with ⟨e, he, hle⟩
    rcases List.mem_cons.mp hle with rfl | hle2
    · rfl
    · rcases List.mem_map.mp hle2 with ⟨kv, hkv, rfl⟩
      rfl

/-- Every log line the loop appends either carries the captured test name
at runner level (attempt-level lines) or carries no runner-level name at
all (the success path's dict-dump lines). -/
lemma runGo_log_mem {α : Type} [PyDictView α] (t : TestResults α) (fuel : Nat) :
    ∀ attempt log c l, l ∈ (runGo t attempt fuel log c).log →
      l ∈ log ∨ (∀ nm2, l.runnerName = some nm2 → nm2 = t.test_name) := by
  induction fuel with
  | zero => intro attempt log c l hl; rw [runGo_zero] at hl; exact Or.inl hl
  | succ fuel ih =>
    intro attempt log c l hl
    cases hta : t.test attempt with
    | success v =>
      rw [runGo_step_success t fuel log c hta] at hl
      rcases List.mem_append.mp hl with h | h
      · exact Or.inl h
      · rcases List.mem_cons.mp h with rfl | h2
        · exact Or.inr (fun nm2 hnm => Option.some.inj hnm.symm)
        · refine Or.inr (fun nm2 hnm => ?_)
          rw [resultDump_runnerName v l h2] at hnm
          cases hnm
    | timeout =>
      rcases Nat.eq_zero_or_pos fuel with h0 | h0
      · subst h0
        rw [runGo_last_timeout t log c hta] at hl
        rcases List.mem_append.mp hl with h | h
        · exact Or.inl h
        · simp at h; subst h
          exact Or.inr (fun nm2 hnm => Option.some.inj hnm.symm)
      · rw [runGo_step_timeout t log c hta (by omega)] at hl
        rcases ih (attempt + 1) _ (c + 1) l hl with h | h
        · rcases List.mem_append.mp h with h2 | h2
          · exact Or.inl h2
          · simp at h2; subst h2
            exact Or.inr (fun nm2 hnm => Option.some.inj hnm.symm)
        · exact Or.inr h
    | failure msg =>
      rcases Nat.eq_zero_or_pos fuel with h0 | h0
      · subst h0
        rw [runGo_last_failure t log c hta] at hl
        rcases List.mem_append.mp hl with h | h
        · exact Or.inl h
        · simp at h; subst h
          exact Or.inr (fun nm2 hnm => Option.some.inj hnm.symm)
      · rw [runGo_step_failure t log c hta (by omega)] at hl
        rcases ih (attempt + 1) _ (c + 1) l hl with h | h
        · rcases List.mem_append.mp h with h2 | h2
          · exact Or.inl h2
          · simp at h2; subst h2
            exact Or.inr (fun nm2 hnm => Option.some.inj hnm.symm)
        · exact Or.inr h

/-- Every error the loop can raise carries the captured test name. -/
lemma runGo_error_name {α : Type} [PyDictView α] (t : TestResults α) (fuel : Nat) :
    ∀ attempt log c e, (runGo t attempt fuel log c).outcome = .error e →
      e.nameOf = t.test_name := by
  induction fuel with
  | zero =>
    intro attempt log c e he
    rw [runGo_zero] at he
    cases he; rfl
  | succ fuel ih =>
    intro attempt log c e he
    cases hta : t.test attempt with
    | success v => rw [runGo_step_success t fuel log c hta] at he; cases he
    | timeout =>
      rcases Nat.eq_zero_or_pos fuel with h0 | h0
      · subst h0
        rw [runGo_last_timeout t log c hta] at he
        cases he; rfl
      · rw [runGo_step_timeout t log c hta (by omega)] at he
        exact ih (attempt + 1) _ (c + 1) e he
    | failure msg =>
      rcases Nat.eq_zero_or_pos fuel with h0 | h0
      · subst h0
        rw [runGo_last_failure t log c hta] at he
        cases he; rfl
      · rw [runGo_step_failure t log c hta (by omega)] at he
        exact ih (attempt + 1) _ (c + 1) e he

/-!
## The claims
-/

/-- C1: with `n_repeats = n ≥ 1`: if every attempt fails or times out,
`run()` raises a terminal exhaustion error after exactly `n` invocations of
the wrapped test, never more and never fewer; and if attempts `1..k-1` are
non-successful while attempt `k ≤ n` succeeds, `run()` returns that result
having invoked the test exactly `k` times. -/
theorem run_retry_policy {α : Type} [PyDictView α] (t : TestResults α) (n : Nat)
    (hn : t.n_repeats = (n : Int)) (h1 : 1 ≤ n) :
    ((∀ k, 1 ≤ k → k ≤ n → (t.test k).isSuccess = false) →
      t.run.calls = n ∧
        (t.run.outcome = .error (.testTimeoutError t.test_name) ∨
         t.run.outcome = .error (.testError t.test_name t.n_repeats))) ∧
    (∀ k v, 1 ≤ k → k ≤ n → t.test k = .success v →
      (∀ j, 1 ≤ j → j < k → (t.test j).isSuccess = false) →
      t.run.outcome = .ok v ∧ t.run.calls = k) := by
  have htn : t.n_repeats.toNat = n := by omega
  have hrun : t.run = runGo t 1 n [] 0 := by unfold TestResults.run; rw [htn]
  constructor
  · intro hfail
    obtain ⟨m, rfl⟩ : ∃ m, n = m + 1 := ⟨n - 1, by omega⟩
    have hx := runGo_exhaust t m 1 [] 0 (fun k hk1 hk2 => hfail k hk1 (by omega))
    rw [hrun]
    refine ⟨by rw [hx.1]; omega, ?_⟩
    cases hlast : t.test (1 + m) with
    | success v =>
      have := hfail (1 + m) (by omega) (by omega)
      rw [hlast] at this
      simp [AttemptOutcome.isSuccess] at this
    | timeout => exact Or.inl (hx.2.1 hlast)
    | failure msg => exact Or.inr (hx.2.2 msg hlast)
  · intro k v hk1 hkn hs hprev
    have hx := runGo_first_success t n 1 [] 0 k v hk1 (by omega) hs
      (fun j hj1 hj2 => hprev j hj1 hj2)
    rw [hrun]
    exact ⟨hx.1, by rw [hx.2.1]; omega⟩

/-- C1 witness: a test that fails on attempts 1 and 2 and succeeds on
attempt 3, with `n_repeats = 3`, returns the result after exactly three
invocations. -/
theorem run_retry_policy_witness :
    (TestResults.run ⟨fun k => if k < 3 then .failure "e" else .success 7, "f", 3⟩
      : RunTrace Nat).outcome = .ok 7 ∧
    (TestResults.run ⟨fun k => if k < 3 then .failure "e" else .success 7, "f", 3⟩
      : RunTrace Nat).calls = 3 :=
  (run_retry_policy ⟨fun k => if k < 3 then .failure "e" else .success 7, "f", 3⟩
      3 rfl (by omega)).2 3 7 (by omega) (by omega) rfl
    (fun j hj1 hj2 => by interval_cases j <;> rfl)

/-- C9: with `n_repeats ≤ 0` the attempt range `range(1, n_repeats + 1)` is
empty, so the loop body is never entered: `run()` raises the fall-through
`TestError("Unexpected failure in test %s")` having invoked the wrapped
test zero times and logged nothing. -/
theorem run_nonpositive_repeats {α : Type} [PyDictView α] (t : TestResults α)
    (h : t.n_repeats ≤ 0) :
    t.run.outcome = .error (.unexpectedFailure t.test_name) ∧
    t.run.calls = 0 ∧ t.run.log = [] := by
  have htn : t.n_repeats.toNat = 0 := by omega
  have hrun : t.run = runGo t 1 0 [] 0 := by unfold TestResults.run; rw [htn]
  rw [hrun, runGo_zero]
  exact ⟨rfl, rfl, rfl⟩

/-- C9 witness: a runner constructed with `n_repeats = -2` around an
always-succeeding test raises the fallback error without ever invoking the
test. -/
theorem run_nonpositive_repeats_witness :
    (TestResults.run ⟨fun _ => .success 1, "f", -2⟩ : RunTrace Nat).outcome
      = .error (.unexpectedFailure "f") ∧
    (TestResults.run ⟨fun _ => .success 1, "f", -2⟩ : RunTrace Nat).calls = 0 ∧
    (TestResults.run ⟨fun _ => .success 1, "f", -2⟩ : RunTrace Nat).log = [] :=
  run_nonpositive_repeats ⟨fun _ => .success 1, "f", -2⟩ (by decide)

/-- C2 (amended): when all attempts are exhausted, the terminal error's
kind follows the last attempt — `TestTimeoutError` after a timeout,
carrying only the work's name, and `TestError` after a generic failure,
carrying the name and the attempt count. -/
theorem exhaustion_error_kind {α : Type} [PyDictView α] (t : TestResults α) (n : Nat)
    (hn : t.n_repeats = (n : Int)) (h1 : 1 ≤ n)
    (hfail : ∀ k, 1 ≤ k → k ≤ n → (t.test k).isSuccess = false) :
    (t.test n = .timeout →
      t.run.outcome = .error (.testTimeoutError t.test_name)) ∧
    (∀ msg, t.test n = .failure msg →
      t.run.outcome = .error (.testError t.test_name t.n_repeats)) := by
  have htn : t.n_repeats.toNat = n := by omega
  have hrun : t.run = runGo t 1 n [] 0 := by unfold TestResults.run; rw [htn]
  obtain ⟨m, rfl⟩ : ∃ m, n = m + 1 := ⟨n - 1, by omega⟩
  have hx := runGo_exhaust t m 1 [] 0 (fun k hk1 hk2 => hfail k hk1 (by omega))
  have harith : 1 + m = m + 1 := by omega
  rw [hrun]
  constructor
  · intro hto
    exact hx.2.1 (by rw [harith]; exact hto)
  · intro msg hmsg
    exact hx.2.2 msg (by rw [harith]; exact hmsg)

/-- C2 witness: an always-timing-out test with `n_repeats = 2` ends with
`TestTimeoutError("Test %s consistently timed out", "f")`. -/
theorem exhaustion_error_kind_witness :
    (TestResults.run ⟨fun _ => .timeout, "f", 2⟩ : RunTrace Nat).outcome
      = .error (.testTimeoutError "f") :=
  (exhaustion_error_kind ⟨fun _ => .timeout, "f", 2⟩ 2 rfl (by omega)
    (fun k hk1 hk2 => rfl)).1 rfl

/-- C2 counterexample: two always-timing-out runners that differ only in
their retry count (2 vs 3) raise the *identical* terminal error, so the
timeout-exhaustion error cannot carry the attempt count — it carries only
the name (`TestTimeoutError("Test %s consistently timed out", name)` has no
count argument). -/
theorem exhaustion_error_kind_counterexample :
    (TestResults.run ⟨fun _ => .timeout, "g", 2⟩ : RunTrace Nat).outcome
      = (TestResults.run ⟨fun _ => .timeout, "g", 3⟩ : RunTrace Nat).outcome ∧
    (TestResults.run ⟨fun _ => .timeout, "g", 2⟩ : RunTrace Nat).outcome
      = .error (.testTimeoutError "g") :=
  ⟨rfl, rfl⟩

/-- C5: an error raised during measurement is never swallowed:
`test_algorithm` re-raises the exception coming out of the `big_o` sweep
unchanged, the runner's `except Exception` branch treats the attempt as a
generic failure, and — with attempts remaining after `k` failed attempts —
the runner invokes the whole wrapped sweep again (at least `k + 1`
invocations happen). -/
theorem measurement_error_propagates {α : Type} [PyDictView α] (ta : AlgorithmTest)
    (e : String) (t : TestResults α) (n k : Nat)
    (hn : t.n_repeats = (n : Int)) (hk1 : 1 ≤ k) (hkn : k < n)
    (hfail : ∀ j, 1 ≤ j → j ≤ k → (t.test j).isSuccess = false) :
    test_algorithm ta (.error e) = .error e ∧
    profilerAttempt ta (.error e) = .failure e ∧
    k + 1 ≤ t.run.calls := by
  refine ⟨rfl, rfl, ?_⟩
  show k + 1 ≤ (runGo t 1 t.n_repeats.toNat [] 0).calls
  have hx := runGo_calls_ge t k t.n_repeats.toNat 1 [] 0 (by omega)
    (fun j hj1 hj2 => hfail j hj1 (by omega))
  omega

/-- C5 witness: with a sweep that always raises `"boom"` and three retry
attempts, the error propagates through `test_algorithm` and the runner
invokes the sweep a second time after the first failure. -/
theorem measurement_error_propagates_witness :
    test_algorithm ⟨"Binary Search", 100⟩ (.error "boom") = .error "boom" ∧
    profilerAttempt ⟨"Binary Search", 100⟩ (.error "boom") = .failure "boom" ∧
    1 + 1 ≤ (TestResults.run ⟨fun _ => .failure "boom", "f", 3⟩
      : RunTrace (List (String × TAEntry))).calls :=
  measurement_error_propagates ⟨"Binary Search", 100⟩ "boom"
    ⟨fun _ => .failure "boom", "f", 3⟩ 3 1 rfl (by omega) (by omega)
    (fun j hj1 hj2 => rfl)

/-- C6 (amended): fewer than two distinct sampled sizes makes the
(spec-modelled) `big_o` sweep raise `InsufficientDataError`, and the
runner's generic `except Exception` branch treats it like any other
failure: the run is retried per policy, exhausting all `n` attempts and
ending in `TestError` — the error is NOT treated as fatal. -/
theorem insufficient_data_retried (ta : AlgorithmTest) (sizes : List Nat)
    (good : BigOOutput) (tr : TestResults (List (String × TAEntry))) (n : Nat)
    (hsz : sizes.dedup.length < 2)
    (hinit : TestResults.init
      (mainCallable ta (fun _ => bigOOutcome sizes good)) (n : Int) = .ok tr)
    (h1 : 1 ≤ n) :
    profilerAttempt ta (bigOOutcome sizes good)
        = .failure "InsufficientDataError" ∧
    tr.run.calls = n ∧
    tr.run.outcome = .error (.testError "<lambda>" (n : Int)) := by
  have hb : bigOOutcome sizes good = .error "InsufficientDataError" := by
    unfold bigOOutcome
    rw [if_pos hsz]
  have hp : profilerAttempt ta (bigOOutcome sizes good)
      = .failure "InsufficientDataError" := by
    rw [hb]; rfl
  have hinit2 : (Except.ok
      (⟨fun k => profilerAttempt ta (bigOOutcome sizes good), "<lambda>", (n : Int)⟩
        : TestResults (List (String × TAEntry)))
      : Except String (TestResults (List (String × TAEntry)))) = .ok tr := hinit
  have htr := Except.ok.inj hinit2
  subst htr
  obtain ⟨m, rfl⟩ : ∃ m, n = m + 1 := ⟨n - 1, by omega⟩
  set tr : TestResults (List (String × TAEntry)) :=
    ⟨fun k => profilerAttempt ta (bigOOutcome sizes good), "<lambda>", ((m + 1 : Nat) : Int)⟩
  have hrun : tr.run = runGo tr 1 (m + 1) [] 0 := rfl
  have hx := runGo_exhaust tr m 1 [] 0
    (fun k hk1 hk2 => by show (profilerAttempt ta (bigOOutcome sizes good)).isSuccess = false; rw [hp]; rfl)
  rw [hrun]
  refine ⟨hp, by rw [hx.1]; omega, ?_⟩
  exact hx.2.2 "InsufficientDataError"
    (by show profilerAttempt ta (bigOOutcome sizes good) = _; exact hp)

/-- C6 witness: a concrete sweep over sizes `[5, 5]` (one distinct size)
wrapped with three retries ends in `TestError` after three invocations. -/
theorem insufficient_data_retried_witness :
    profilerAttempt ⟨"A", 100⟩ (bigOOutcome [5, 5] ⟨"O(1)", []⟩)
        = .failure "InsufficientDataError" ∧
    (TestResults.run
      ⟨fun _ => profilerAttempt ⟨"A", 100⟩ (bigOOutcome [5, 5] ⟨"O(1)", []⟩),
        "<lambda>", 3⟩).calls = 3 ∧
    (TestResults.run
      ⟨fun _ => profilerAttempt ⟨"A", 100⟩ (bigOOutcome [5, 5] ⟨"O(1)", []⟩),
        "<lambda>", 3⟩).outcome = .error (.testError "<lambda>" 3) :=
  insufficient_data_retried ⟨"A", 100⟩ [5, 5] ⟨"O(1)", []⟩ _ 3 (by decide)
    rfl (by omega)

/-- C6 counterexample: the claim says the `InsufficientDataError` run is
not retried; in fact with retry count 3 a 1-distinct-size sweep is invoked
3 times, not once — the runner retried it twice. -/
theorem insufficient_data_counterexample :
    (TestResults.run
      ⟨fun _ => profilerAttempt ⟨"A", 100⟩ (bigOOutcome [5, 5] ⟨"O(1)", []⟩),
        "<lambda>", 3⟩).calls = 3 ∧
    ¬ (TestResults.run
      ⟨fun _ => profilerAttempt ⟨"A", 100⟩ (bigOOutcome [5, 5] ⟨"O(1)", []⟩),
        "<lambda>", 3⟩).calls = 1 :=
  ⟨rfl, by decide⟩

/-- C10 (amended): the runner-level name — the one carried by the
attempt-level log lines (timeout, failure, success) and by every terminal
error — is the callable's `__name__` captured at construction time: a
callable lacking `__name__` makes `__init__` raise `AttributeError` before
any attempt runs, and the repository's `main` wraps the sweep as
`lambda: test_algorithm(test)`, so the captured name is `"<lambda>"`, not
the `AlgorithmTest.name` field.  The success path's dict-dump lines,
however, carry no runner-level name at all: their subtest names are the
returned dictionary's keys. -/
theorem test_name_provenance {α : Type} [PyDictView α] (c cNone : Callable α)
    (r : Int) (nm : String) (ta : AlgorithmTest)
    (bigO : Nat → Except String BigOOutput)
    (tr : TestResults α) (tr2 : TestResults (List (String × TAEntry)))
    (hnone : cNone.dunderName = none)
    (hname : c.dunderName = some nm)
    (hinit : TestResults.init c r = .ok tr)
    (hinit2 : TestResults.init (mainCallable ta bigO) r = .ok tr2) :
    TestResults.init cNone r = .error "AttributeError" ∧
    tr.test_name = nm ∧
    (∀ l ∈ tr.run.log, ∀ nm2, l.runnerName = some nm2 → nm2 = nm) ∧
    (∀ e, tr.run.outcome = .error e → e.nameOf = nm) ∧
    tr2.test_name = "<lambda>" := by
  have htr : tr = ⟨c.script, nm, r⟩ := by
    unfold TestResults.init at hinit
    rw [hname] at hinit
    exact (Except.ok.inj hinit).symm
  have htr2 : tr2.test_name = "<lambda>" := by
    have h2 : (Except.ok (⟨(mainCallable ta bigO).script, "<lambda>", r⟩
        : TestResults (List (String × TAEntry)))
        : Except String (TestResults (List (String × TAEntry)))) = .ok tr2 := hinit2
    rw [← Except.ok.inj h2]
  subst htr
  refine ⟨?_, rfl, ?_, ?_, htr2⟩
  · unfold TestResults.init
    rw [hnone]
  · intro l hl
    have hl2 : l ∈ (runGo (⟨c.script, nm, r⟩ : TestResults α) 1 r.toNat [] 0).log := hl
    rcases runGo_log_mem _ _ 1 [] 0 l hl2 with h | h
    · exact absurd h (List.not_mem_nil l)
    · exact h
  · intro e he
    have he2 : (runGo (⟨c.script, nm, r⟩ : TestResults α) 1 r.toNat [] 0).outcome
        = .error e := he
    exact runGo_error_name _ _ 1 [] 0 e he2

/-- C10 witness: a nameless callable raises `AttributeError`; a callable
named `"g"` that always times out reports `"g"` in its attempt-level log
lines and terminal error; the `main`-style lambda wrapper is registered
under `"<lambda>"` even though the `AlgorithmTest` is named
`"Binary Search"`. -/
theorem test_name_provenance_witness :
    TestResults.init (⟨none, fun _ => .success 0⟩ : Callable Nat) 3
        = .error "AttributeError" ∧
    (⟨fun _ => .timeout, "g", 3⟩ : TestResults Nat).test_name = "g" ∧
    (∀ l ∈ (TestResults.run ⟨fun _ => .timeout, "g", 3⟩ : RunTrace Nat).log,
      ∀ nm2, l.runnerName = some nm2 → nm2 = "g") ∧
    (∀ e, (TestResults.run ⟨fun _ => .timeout, "g", 3⟩ : RunTrace Nat).outcome
        = .error e → e.nameOf = "g") ∧
    (⟨fun _ => profilerAttempt ⟨"Binary Search", 100⟩ (Except.error "x"),
        "<lambda>", 3⟩ : TestResults (List (String × TAEntry))).test_name
      = "<lambda>" :=
  test_name_provenance ⟨some "g", fun _ => .timeout⟩ ⟨none, fun _ => .success 0⟩
    3 "g" ⟨"Binary Search", 100⟩ (fun _ => .error "x") _ _ rfl rfl rfl rfl

/-- C10 counterexample: on the success path `_log_test_results` emits a
`"Subtest: %s"` line per key of the returned results dictionary — and with
the repository's own `test_algorithm` result that key is exactly the
`AlgorithmTest`'s `name` field (`"Binary Search"`), not the captured
`__name__` (`"<lambda>"`): a log line of `TestResults` carries the
WorkItem's name, so the frozen claim's universal over log lines fails. -/
theorem test_name_provenance_counterexample :
    test_algorithm ⟨"Binary Search", 100⟩ (.ok ⟨"O(1)", []⟩)
      = .ok [("Binary Search", ⟨"O(1)", []⟩)] ∧
    (.subtest "Binary Search") ∈
      (TestResults.run
        ⟨fun _ => profilerAttempt ⟨"Binary Search", 100⟩ (.ok ⟨"O(1)", []⟩),
          "<lambda>", 3⟩ : RunTrace (List (String × TAEntry))).log ∧
    (LogLine.subtest "Binary Search").runnerName ≠ some "<lambda>" ∧
    "Binary Search" ≠ "<lambda>" :=
  ⟨rfl, by decide, by decide, by decide⟩

/-- C4 (amended): on a success at attempt `k`, `run()` returns the raw
profiling result unchanged — `_log_test_results(result, attempt)` logs the
attempt number in the success line (followed by the result's dict dump)
and returns `result` as-is — so the attempt number appears only in the
log, not in the returned value. -/
theorem success_value_untagged {α : Type} [PyDictView α] (t : TestResults α)
    (n k : Nat) (v : α)
    (hn : t.n_repeats = (n : Int)) (hk1 : 1 ≤ k) (hkn : k ≤ n)
    (hs : t.test k = .success v)
    (hprev : ∀ j, 1 ≤ j → j < k → (t.test j).isSuccess = false) :
    t.run.outcome = .ok v ∧
    ∃ pre, t.run.log = pre ++ (.successLine t.test_name k :: resultDump v) := by
  have htn : t.n_repeats.toNat = n := by omega
  have hrun : t.run = runGo t 1 n [] 0 := by unfold TestResults.run; rw [htn]
  have hx := runGo_first_success t n 1 [] 0 k v hk1 (by omega) hs
    (fun j hj1 hj2 => hprev j hj1 hj2)
  obtain ⟨pre, hpre⟩ := hx.2.2
  rw [hrun]
  exact ⟨hx.1, ⟨pre, by rw [hpre]; simp⟩⟩

/-- C4 witness: a test failing on attempt 1 and succeeding on attempt 2
returns the raw `.ok 9` with the success log line tagged attempt 2 closing
the log (an int result is not a dict, so its dump is empty). -/
theorem success_value_untagged_witness :
    (TestResults.run ⟨fun k => if k = 1 then .failure "b" else .success 9, "f", 3⟩
      : RunTrace Nat).outcome = .ok 9 ∧
    (∃ pre, (TestResults.run ⟨fun k => if k = 1 then .failure "b" else .success 9, "f", 3⟩
      : RunTrace Nat).log = pre ++ (.successLine "f" 2 :: resultDump 9)) :=
  success_value_untagged ⟨fun k => if k = 1 then .failure "b" else .success 9, "f", 3⟩
    3 2 9 rfl (by omega) (by omega) rfl
    (fun j hj1 hj2 => by interval_cases j <;> rfl)

/-- C4 counterexample: a run that succeeds on attempt 1 and a run that
succeeds on attempt 2 return the *identical* value `.ok 42` — the attempt
number that succeeded is visible only in the log, so the successful
outcome is not tagged with the attempt number. -/
theorem success_value_counterexample :
    (TestResults.run ⟨fun _ => .success 42, "h", 3⟩ : RunTrace Nat).outcome
      = (TestResults.run ⟨fun k => if k = 1 then .failure "boom" else .success 42, "h", 3⟩
          : RunTrace Nat).outcome ∧
    (TestResults.run ⟨fun _ => .success 42, "h", 3⟩ : RunTrace Nat).log.getLast?
      = some (.successLine "h" 1) ∧
    (TestResults.run ⟨fun k => if k = 1 then .failure "boom" else .success 42, "h", 3⟩
      : RunTrace Nat).log.getLast? = some (.successLine "h" 2) :=
  ⟨rfl, rfl, rfl⟩

/-- C3 (amended): every configuration value defaults to the stated number
(`min_n = 100`, `max_n = 10000`, `n_measures = 10`, `n_timings = 5`,
retry count 3, per-attempt timeout 10s), but only the retry count
(`TestResults.__init__`'s `n_repeats`) and big_o's per-measurement repeat
count (`AlgorithmTest.n_repeats`) are caller-overridable; the size range,
size-sample count, per-size timing count and per-attempt timeout are
hard-coded literals, identical for every call. -/
theorem config_defaults {α : Type} (ta : AlgorithmTest) (c : Callable α)
    (r : Int) (tr : TestResults α)
    (hinit : TestResults.init c r = .ok tr) :
    bigOArgsOf ta = ⟨100, 10000, 10, ta.n_repeats, 5⟩ ∧
    TestResults.waitForTimeout = 10 ∧
    TestResults.defaultNRepeats = 3 ∧
    AlgorithmTest.default_n_repeats = 100 ∧
    tr.n_repeats = r := by
  refine ⟨rfl, rfl, rfl, rfl, ?_⟩
  unfold TestResults.init at hinit
  cases hdn : c.dunderName with
  | none => rw [hdn] at hinit; cases hinit
  | some nm =>
    rw [hdn] at hinit
    rw [← Except.ok.inj hinit]

/-- C3 witness: a concrete construction with `n_repeats = 7` shows the
retry count reaching the runner while the big_o sizing arguments stay at
their hard-coded defaults. -/
theorem config_defaults_witness :
    bigOArgsOf ⟨"Binary Search", 100⟩ = ⟨100, 10000, 10, 100, 5⟩ ∧
    TestResults.waitForTimeout = 10 ∧
    TestResults.defaultNRepeats = 3 ∧
    AlgorithmTest.default_n_repeats = 100 ∧
    (⟨(fun _ => .timeout : Nat → AttemptOutcome Nat), "g", 7⟩
      : TestResults Nat).n_repeats = 7 :=
  config_defaults ⟨"Binary Search", 100⟩ ⟨some "g", fun _ => .timeout⟩ 7 _ rfl

/-- C3 counterexample: the sizing parameters are not overridable per call —
two maximally different caller inputs receive the identical hard-coded
`min_n`, `max_n`, `n_measures` and `n_timings`, and the per-attempt timeout
is a fixed literal in `run()`, reachable by no parameter. -/
theorem config_defaults_counterexample :
    (bigOArgsOf ⟨"A", 5⟩).min_n = (bigOArgsOf ⟨"B", 999999⟩).min_n ∧
    (bigOArgsOf ⟨"A", 5⟩).max_n = (bigOArgsOf ⟨"B", 999999⟩).max_n ∧
    (bigOArgsOf ⟨"A", 5⟩).n_measures = (bigOArgsOf ⟨"B", 999999⟩).n_measures ∧
    (bigOArgsOf ⟨"A", 5⟩).n_timings = (bigOArgsOf ⟨"B", 999999⟩).n_timings ∧
    TestResults.waitForTimeout = 10 :=
  ⟨rfl, rfl, rfl, rfl, rfl⟩

/-- C7: a profile produced from at least two distinct sampled sizes has a
non-empty `rankedFits`, sorted ascending by residual, and `bestFit` is its
head — the minimal-residual model. -/
theorem profile_ranking_invariant (sizes : List Nat)
    (resid : CandidateModel → Rat) (pr : ProfileResult)
    (h : profile sizes resid = .ok pr) :
    pr.rankedFits ≠ [] ∧
    List.Sorted residLE pr.rankedFits ∧
    pr.bestFit = pr.rankedFits.headI ∧
    ∀ f ∈ pr.rankedFits, pr.bestFit.residual ≤ f.residual := by
  unfold profile at h
  by_cases hsz : sizes.dedup.length < 2
  · rw [if_pos hsz] at h; cases h
  · rw [if_neg hsz] at h
    have hpr := (Except.ok.inj h).symm
    subst hpr
    have hperm : List.Perm
        (rankFits (candidateList.map fun c => (⟨c, resid c⟩ : FittedModel)))
        (candidateList.map (fun c => (⟨c, resid c⟩ : FittedModel))) :=
      List.perm_insertionSort residLE _
    have hne : rankFits (candidateList.map fun c => (⟨c, resid c⟩ : FittedModel)) ≠ [] := by
      intro h0
      have hlen := hperm.length_eq
      rw [h0] at hlen
      simp [candidateList] at hlen
    have hsorted : List.Sorted residLE
        (rankFits (candidateList.map fun c => (⟨c, resid c⟩ : FittedModel))) :=
      List.sorted_insertionSort residLE _
    refine ⟨hne, hsorted, rfl, ?_⟩
    intro f hf
    cases hr : rankFits (candidateList.map fun c => (⟨c, resid c⟩ : FittedModel)) with
    | nil => exact absurd hr hne
    | cons a l =>
      rw [hr] at hf hsorted
      rcases List.mem_cons.mp hf with rfl | hmem
      · exact le_refl _
      · exact (List.pairwise_cons.mp hsorted).1 f hmem

/-- C7 witness: profiling two distinct sizes with the concrete residual
assignment `exampleResid` yields the expected ranking with the constant
model as best fit. -/
theorem profile_ranking_invariant_witness :
    profile [100, 1000] exampleResid = .ok exampleProfileResult ∧
    (exampleProfileResult.rankedFits ≠ [] ∧
     List.Sorted residLE exampleProfileResult.rankedFits ∧
     exampleProfileResult.bestFit = exampleProfileResult.rankedFits.headI ∧
     ∀ f ∈ exampleProfileResult.rankedFits,
       exampleProfileResult.bestFit.residual ≤ f.residual) :=
  ⟨rfl, profile_ranking_invariant [100, 1000] exampleResid
    exampleProfileResult rfl⟩

end AoC
